import Mathlib

/-!
Verification development for the zenix batch image-processing pipeline.

The definitions below are a shallow embedding of the TypeScript source:
  * `src/lib/watermark.ts` — geometry resolution (`parsePadding`,
    `calculateWatermarkSize`, `calculateImagePosition`), the alpha-channel
    scaling loop, option validation in `addWatermark`, and the batch
    directory loop `processDirectory`;
  * `src/lib/resize.ts` and the metadata (strip) library — their
    structurally identical `processDirectory` loops.

JavaScript numbers are modelled as rationals (`ℚ`); `Math.round` is
`jsRound`; byte stores into a `Uint8Array`/`Buffer` are `toUint8`
(reduction modulo 2^8, the ECMAScript `ToUint8` conversion).  Fallible
code returns `Except String`.  Filesystem effects are modelled as explicit
action traces where a claim depends on them.
-/

/-- JavaScript `Math.round`: round half toward positive infinity. -/
def jsRound (q : ℚ) : ℤ := ⌊q + 1/2⌋

/-- ECMAScript `ToUint8`, performed by an indexed store into a
`Uint8Array`/Node `Buffer`: reduce the integer modulo 2^8 (wrapping, not
clamping). -/
def toUint8 (z : ℤ) : ℕ := (z % 256).toNat

/-- Clamping an integer to the byte range [0, 255]; used only to state
what the spec asserts about extreme opacities (the code instead wraps). -/
def clamp255 (z : ℤ) : ℤ := max 0 (min 255 z)

/-! ## Numeric string parsing (JavaScript `parseFloat`)

`parsePadding` in `src/lib/watermark.ts` relies on `parseFloat`.  The
model parses an optional sign, a decimal significand and an optional
exponent from the front of the string, ignoring trailing garbage, and
returns `none` where `parseFloat` returns `NaN` (no digits parsed).  The
`Infinity` production of `parseFloat` is not modelled; no claim
exercises it.  Parsing is split into a syntactic phase over characters
(`parseNumSyntax`) and a numeric phase (`numValue`). -/

/-- Take a maximal run of leading decimal digits, returning their values
and the rest of the characters. -/
def takeDigits : List Char → List ℕ × List Char
  | [] => ([], [])
  | c :: cs =>
    if c.isDigit then
      let r := takeDigits cs
      ((c.toNat - 48) :: r.1, r.2)
    else ([], c :: cs)

/-- Digit list (most significant first) to a natural number. -/
def digitsToNat (ds : List ℕ) : ℕ := ds.foldl (fun a d => a * 10 + d) 0

/-- Parse an unsigned decimal significand `digits[.digits]` or `.digits`
from the front of the character list, returning
`(integer part, fraction part, fraction length)` and the rest. -/
def parseSignificand (cs : List Char) : Option ((ℕ × ℕ × ℕ) × List Char) :=
  let ip := takeDigits cs
  match ip.2 with
  | '.' :: rest2 =>
    let fp := takeDigits rest2
    if ip.1.isEmpty ∧ fp.1.isEmpty then none
    else some ((digitsToNat ip.1, digitsToNat fp.1, fp.1.length), fp.2)
  | _ => if ip.1.isEmpty then none else some ((digitsToNat ip.1, 0, 0), ip.2)

/-- Parse a trailing `e`/`E` exponent, if present and well-formed;
an ill-formed exponent tail is trailing garbage and contributes 0. -/
def parseExponentPart (cs : List Char) : ℤ :=
  match cs with
  | c :: r =>
    if c = 'e' ∨ c = 'E' then
      let signed : Bool × List Char :=
        match r with
        | '-' :: rr => (true, rr)
        | '+' :: rr => (false, rr)
        | _ => (false, r)
      let ed := takeDigits signed.2
      if ed.1.isEmpty then 0
      else (if signed.1 then -1 else 1) * (digitsToNat ed.1 : ℤ)
    else 0
  | [] => 0

/-- Syntactic phase of `parseFloat`: leading whitespace, optional sign,
significand, optional exponent.  Returns
`(negative, integer part, fraction part, fraction length, exponent)`. -/
def parseNumSyntax (s : String) : Option (Bool × ℕ × ℕ × ℕ × ℤ) :=
  let cs := s.data.dropWhile (fun c => c = ' ' ∨ c = '\t' ∨ c = '\n' ∨ c = '\r')
  let signed : Bool × List Char :=
    match cs with
    | '-' :: r => (true, r)
    | '+' :: r => (false, r)
    | _ => (false, cs)
  match parseSignificand signed.2 with
  | none => none
  | some (v, rest) => some (signed.1, v.1, v.2.1, v.2.2, parseExponentPart rest)

/-- Numeric phase: the rational value of a parsed decimal literal. -/
def numValue (p : Bool × ℕ × ℕ × ℕ × ℤ) : ℚ :=
  (if p.1 then -1 else 1) * ((p.2.1 : ℚ) + (p.2.2.1 : ℚ) / 10 ^ p.2.2.2.1) *
    (10 : ℚ) ^ p.2.2.2.2

/-- JavaScript `parseFloat` on decimal literals; `none` models `NaN`. -/
def jsParseFloat (s : String) : Option ℚ :=
  (parseNumSyntax s).map numValue

/-- `value.endsWith('%')`, expressed over the character list. -/
def endsWithPercent (s : String) : Bool := s.data.getLast? = some '%'

/-! ## GeometryResolver (`src/lib/watermark.ts`) -/

/-- `parsePadding(value, dimension)` from `src/lib/watermark.ts` lines
329–343: a percentage string scales the dimension, a plain number is
pixels; `NaN`, negative values, and percentages above 100 throw. -/
def parsePadding (value : String) (dimension : ℚ) : Except String ℚ :=
  if endsWithPercent value then
    match jsParseFloat ⟨value.data.dropLast⟩ with
    | none => .error ("Padding percentage must be between 0 and 100, got: " ++ value)
    | some percent =>
      if percent < 0 ∨ percent > 100 then
        .error ("Padding percentage must be between 0 and 100, got: " ++ value)
      else .ok (dimension * (percent / 100))
  else
    match jsParseFloat value with
    | none => .error ("Padding must be a positive number or percentage, got: " ++ value)
    | some pixels =>
      if pixels < 0 then
        .error ("Padding must be a positive number or percentage, got: " ++ value)
      else .ok pixels

/-- `calculateWatermarkSize` from `src/lib/watermark.ts` lines 345–364:
target maximum dimension, uniform scale factor, both outputs rounded. -/
def calculateWatermarkSize (watermarkWidth watermarkHeight imageWidth imageHeight
    sizePercent : ℚ) : ℤ × ℤ :=
  let maxDimension := min imageWidth imageHeight * (sizePercent / 100)
  let scaleX := maxDimension / watermarkWidth
  let scaleY := maxDimension / watermarkHeight
  let scale := min scaleX scaleY
  (jsRound (watermarkWidth * scale), jsRound (watermarkHeight * scale))

/-- `calculateImagePosition` from `src/lib/watermark.ts` lines 289–312:
five recognized anchors; every other string takes the default branch
(bottom-right). -/
def calculateImagePosition (position : String) (width height watermarkWidth
    watermarkHeight paddingX paddingY : ℚ) : ℚ × ℚ :=
  if position = "top-left" then (paddingX, paddingY)
  else if position = "top-right" then (width - watermarkWidth - paddingX, paddingY)
  else if position = "bottom-left" then (paddingX, height - watermarkHeight - paddingY)
  else if position = "bottom-right" then
    (width - watermarkWidth - paddingX, height - watermarkHeight - paddingY)
  else if position = "center" then
    ((width - watermarkWidth) / 2, (height - watermarkHeight) / 2)
  else (width - watermarkWidth - paddingX, height - watermarkHeight - paddingY)

/-- The content box `[x, x+w] × [y, y+h]` lies inside the canvas. -/
def boxInCanvas (x y contentW contentH canvasW canvasH : ℚ) : Prop :=
  0 ≤ x ∧ 0 ≤ y ∧ x + contentW ≤ canvasW ∧ y + contentH ≤ canvasH

/-! ## AlphaCompositor (`src/lib/watermark.ts` lines 212–215)

For PNG/SVG/WebP overlays the source walks the raw RGBA buffer:
`for (let i = 3; i < data.length; i += 4) data[i] = Math.round(data[i] * opacity)`.
The store into the `Buffer` element performs the ECMAScript `ToUint8`
conversion (`toUint8`). -/

/-- The alpha-scaling loop, carrying the absolute byte index. -/
def scaleAlphaGo (opacity : ℚ) : ℕ → List ℕ → List ℕ
  | _, [] => []
  | i, b :: rest =>
    (if i % 4 = 3 then toUint8 (jsRound ((b : ℚ) * opacity)) else b) ::
      scaleAlphaGo opacity (i + 1) rest

/-- Alpha scaling of a raw RGBA byte buffer at a given opacity. -/
def scaleAlpha (opacity : ℚ) (data : List ℕ) : List ℕ := scaleAlphaGo opacity 0 data

/-- Expected result of scaling at opacity 0 (spec side of the round-trip
property): every alpha byte zeroed, all other bytes untouched. -/
def alphaZeroed : ℕ → List ℕ → List ℕ
  | _, [] => []
  | i, b :: rest => (if i % 4 = 3 then 0 else b) :: alphaZeroed (i + 1) rest

/-! ## BatchOrchestrator

`processDirectory` in `src/lib/watermark.ts` (batch size 3, verb
"watermarking"), `src/lib/resize.ts` (batch size 5, verb "resizing") and
the metadata/strip library (batch size 5, verb "processing") share the
same structure: early zero-count return when no file matches, then
`mkdir` of the output root, then fixed-size batches processed with
per-file failure isolation.  Within a batch the tasks run concurrently
but each performs one atomic counter increment and one message push on
the single-threaded event loop, so the sequential fold below has the
same counts and message multiset; message order within a batch is the
only nondeterminism, and no claim depends on it. -/

/-- Outcome record (`ProcessingResult` in `src/types.ts`). -/
structure ProcessingResult where
  success : Bool
  processed : ℕ
  errors : ℕ
  errorMessages : Option (List String)
deriving DecidableEq

/-- Slice a list into consecutive groups of `n` (the
`for (let i = 0; i < files.length; i += batchSize)` loop), with the
list's length as structural fuel. -/
def chunksAux {α : Type} : ℕ → ℕ → List α → List (List α)
  | _, _, [] => []
  | 0, _, l => [l]
  | fuel + 1, n, l => l.take n :: chunksAux fuel n (l.drop n)

/-- The batches of `files` of size `batchSize`. -/
def chunks {α : Type} (batchSize : ℕ) (l : List α) : List (List α) :=
  chunksAux l.length batchSize l

/-- The formatted per-file failure message,
`` `Error <verb> <file>: <underlying error>` ``. -/
def errMsg (verb file e : String) : String :=
  "Error " ++ verb ++ " " ++ file ++ ": " ++ e

/-- The messages a single file contributes to the aggregate result:
none on success, exactly one formatted message on failure. -/
def fileMsg (verb : String) (process : String → Except String Unit) (f : String) :
    List String :=
  match process f with
  | .ok _ => []
  | .error e => [errMsg verb f e]

/-- One settled per-file task: increment `processed` on success, or
increment `errors` and push the formatted message on failure. -/
def dirStep (verb : String) (process : String → Except String Unit)
    (acc : ℕ × ℕ × List String) (file : String) : ℕ × ℕ × List String :=
  match process file with
  | .ok _ => (acc.1 + 1, acc.2.1, acc.2.2)
  | .error e => (acc.1, acc.2.1 + 1, acc.2.2 ++ [errMsg verb file e])

/-- The shared directory loop: result aggregation of `processDirectory`
(watermark lines 366–428; resize lines 112–173; strip analogous), with
the per-file operation abstracted as `process` (`none`-error model:
`.error e` is a thrown error whose message is `e`). -/
def processDirectory (verb : String) (batchSize : ℕ)
    (process : String → Except String Unit) (files : List String) : ProcessingResult :=
  if files.isEmpty then ⟨true, 0, 0, none⟩
  else
    let r := (chunks batchSize files).foldl
      (fun acc batch => batch.foldl (dirStep verb process) acc) (0, 0, [])
    ⟨r.2.1 == 0, r.1, r.2.1, if r.2.2.length > 0 then some r.2.2 else none⟩

/-- The watermark library's batch run (`src/lib/watermark.ts`). -/
def watermarkProcessDirectory : (String → Except String Unit) → List String → ProcessingResult :=
  processDirectory "watermarking" 3

/-- The resize library's batch run (`src/lib/resize.ts`). -/
def resizeProcessDirectory : (String → Except String Unit) → List String → ProcessingResult :=
  processDirectory "resizing" 5

/-- The strip (metadata) library's batch run. -/
def stripProcessDirectory : (String → Except String Unit) → List String → ProcessingResult :=
  processDirectory "processing" 5

/-- A filesystem write performed by the pipeline. -/
inductive FsWrite where
  | mkdirRec (p : String)
  | fileWrite (p : String)
deriving DecidableEq

/-- The filesystem writes of the shared directory loop: the early
zero-count return performs none; otherwise the output root is created
first, then each file contributes its own writes (subdirectory plus
output file).  All three libraries (watermark, resize, strip) place the
`files.length === 0` return before the `mkdir` of the output root. -/
def processDirectoryWrites (outputDir : String) (perFile : String → List FsWrite)
    (files : List String) : List FsWrite :=
  if files.isEmpty then []
  else FsWrite.mkdirRec outputDir :: files.flatMap perFile

/-- Watermark options, reduced to the fields `addWatermark` validates.
JavaScript truthiness: an absent option and an empty string are both
falsy. -/
structure WatermarkOptions where
  text : Option String
  image : Option String
deriving DecidableEq

/-- JS truthiness of an optional string option. -/
def optTruthy : Option String → Bool
  | none => false
  | some s => !s.isEmpty

/-- Whether a per-file run succeeded. -/
def isOkB : Except String Unit → Bool
  | .ok _ => true
  | .error _ => false

/-- Whether a fallible computation threw. -/
def isErr {α : Type} : Except String α → Bool
  | .ok _ => false
  | .error _ => true

/-- Entry validation of `addWatermark` (`src/lib/watermark.ts` lines
7–40): the text/image option check runs before any filesystem access,
then the input-existence check; only afterwards does control reach the
per-file or per-directory processing (abstracted as `rest`).  The second
component is the trace of filesystem writes performed. -/
def addWatermark (options : WatermarkOptions) (input : String) (inputExists : Bool)
    (rest : Except String ProcessingResult × List FsWrite) :
    Except String ProcessingResult × List FsWrite :=
  if !optTruthy options.text ∧ !optTruthy options.image then
    (.error "Please specify either --text or --image for watermark", [])
  else if optTruthy options.text ∧ optTruthy options.image then
    (.error "Please specify either --text or --image, not both", [])
  else if !inputExists then
    (.error ("Input path does not exist: " ++ input), [])
  else rest

/-! ## Lemmas about the batch loop -/

/-- Folding batch-by-batch is folding the whole file list: the batches
are consecutive slices. -/
theorem chunksAux_foldl {α β : Type} (step : β → α → β) :
    ∀ (fuel n : ℕ) (l : List α) (acc : β),
      (chunksAux fuel n l).foldl (fun a b => b.foldl step a) acc = l.foldl step acc := by
  intro fuel
  induction fuel with
  | zero => intro n l acc; cases l <;> simp [chunksAux]
  | succ fuel ih =>
    intro n l acc
    cases l with
    | nil => simp [chunksAux]
    | cons x xs =>
      show (List.take n (x :: xs) :: chunksAux fuel n (List.drop n (x :: xs))).foldl _ acc = _
      rw [List.foldl_cons, ih]
      conv_rhs => rw [← List.take_append_drop n (x :: xs)]
      rw [List.foldl_append]

/-- Folding over the chunks of a list is folding over the list. -/
theorem chunks_foldl {α β : Type} (step : β → α → β) (n : ℕ) (l : List α) (acc : β) :
    (chunks n l).foldl (fun a b => b.foldl step a) acc = l.foldl step acc :=
  chunksAux_foldl step l.length n l acc

/-- Closed form of the per-file accumulation loop: starting from
`(p, e, m)`, the fold adds the success count, the failure count, and the
formatted message of each failing file in order. -/
theorem foldl_dirStep (verb : String) (process : String → Except String Unit) :
    ∀ (files : List String) (p e : ℕ) (m : List String),
      files.foldl (dirStep verb process) (p, e, m) =
        (p + (files.filter fun f => isOkB (process f)).length,
         e + (files.filter fun f => !isOkB (process f)).length,
         m ++ files.flatMap (fileMsg verb process)) := by
  intro files
  induction files with
  | nil => intro p e m; simp
  | cons f fs ih =>
    intro p e m
    cases h : process f with
    | ok u =>
      simp [List.foldl_cons, dirStep, h, List.filter_cons, isOkB, List.flatMap_cons,
        fileMsg, ih, Prod.ext_iff]
      omega
    | error e' =>
      simp [List.foldl_cons, dirStep, h, List.filter_cons, isOkB, List.flatMap_cons,
        fileMsg, ih, Prod.ext_iff]
      omega

/-- Each failing file contributes exactly one message. -/
theorem flatMap_fileMsg_length (verb : String) (process : String → Except String Unit) :
    ∀ files : List String,
      (files.flatMap (fileMsg verb process)).length =
        (files.filter fun f => !isOkB (process f)).length := by
  intro files
  induction files with
  | nil => rfl
  | cons f fs ih =>
    cases h : process f <;>
      simp [fileMsg, h, List.filter_cons, isOkB, ih]

/-- Characterization of the shared directory loop: counts from filters,
message list from `fileMsg`, presence of the message list from the error
count. -/
theorem processDirectory_eq (verb : String) (batchSize : ℕ)
    (process : String → Except String Unit) (files : List String) :
    processDirectory verb batchSize process files =
      ⟨(files.filter fun f => !isOkB (process f)).length == 0,
       (files.filter fun f => isOkB (process f)).length,
       (files.filter fun f => !isOkB (process f)).length,
       if 0 < (files.flatMap (fileMsg verb process)).length
         then some (files.flatMap (fileMsg verb process)) else none⟩ := by
  unfold processDirectory
  cases files with
  | nil => simp
  | cons f fs =>
    simp only [List.isEmpty_cons, Bool.false_eq_true, if_false,
      chunks_foldl (dirStep verb process), foldl_dirStep]
    simp

/-- A list splits into the part satisfying a predicate and the rest. -/
theorem filter_length_split {α : Type} (p : α → Bool) :
    ∀ l : List α, (l.filter p).length + (l.filter fun a => !p a).length = l.length := by
  intro l
  induction l with
  | nil => rfl
  | cons a l ih =>
    cases h : p a <;> simp [List.filter_cons, h, ← ih] <;> omega

/-! ## Claims -/

/-- C1: for every batch run over a directory, the returned
`ProcessingResult` satisfies: `processed` equals the number of per-file
successes, `errors` equals the number of per-file failures,
`success == (errors == 0)`, and the `errorMessages` list is present only
if `errors > 0` (and then has one entry per failing file). -/
theorem processDirectory_result_invariants (verb : String) (batchSize : ℕ)
    (process : String → Except String Unit) (files : List String) :
    (processDirectory verb batchSize process files).processed
        = (files.filter fun f => isOkB (process f)).length ∧
    (processDirectory verb batchSize process files).errors
        = (files.filter fun f => !isOkB (process f)).length ∧
    (processDirectory verb batchSize process files).success
        = ((processDirectory verb batchSize process files).errors == 0) ∧
    (processDirectory verb batchSize process files).errorMessages.isSome
        = decide (0 < (processDirectory verb batchSize process files).errors) ∧
    ((processDirectory verb batchSize process files).errorMessages.getD []).length
        = (processDirectory verb batchSize process files).errors := by
  have hE := flatMap_fileMsg_length verb process files
  rw [processDirectory_eq]
  refine ⟨rfl, rfl, rfl, ?_, ?_⟩
  · by_cases h : 0 < (files.flatMap (fileMsg verb process)).length
    · simp only [if_pos h, Option.isSome_some]
      rw [← hE]
      exact (decide_eq_true h).symm
    · simp only [if_neg h, Option.isSome_none]
      rw [← hE]
      exact (decide_eq_false h).symm
  · by_cases h : 0 < (files.flatMap (fileMsg verb process)).length
    · simp only [if_pos h, Option.getD_some]
      exact hE
    · simp only [if_neg h, Option.getD_none, List.length_nil]
      rw [← hE]
      omega

/-- C4: in a batch run, a per-file failure increments the error counter
and appends exactly one message `"Error <verb> <path>: <underlying
error>"`, and never prevents sibling tasks in the same batch or files in
subsequent batches from being processed (`processed + errors` covers
every file); over a directory with 7 matching files of which 2 fail, the
result is `{success: false, processed: 5, errors: 2}` with an
error-message list of length 2. -/
theorem processDirectory_failure_isolation (verb : String) (batchSize : ℕ)
    (process : String → Except String Unit) (files : List String) :
    (processDirectory verb batchSize process files).processed
        + (processDirectory verb batchSize process files).errors = files.length ∧
    (processDirectory verb batchSize process files).errors
        = (files.filter fun f => !isOkB (process f)).length ∧
    (processDirectory verb batchSize process files).errorMessages.getD []
        = files.flatMap (fileMsg verb process) ∧
    watermarkProcessDirectory
      (fun f => if f = "b.jpg" ∨ f = "e.jpg" then .error "bad file" else .ok ())
      ["a.jpg", "b.jpg", "c.jpg", "d.jpg", "e.jpg", "f.jpg", "g.jpg"]
    = ⟨false, 5, 2, some ["Error watermarking b.jpg: bad file",
        "Error watermarking e.jpg: bad file"]⟩ := by
  refine ⟨?_, ?_, ?_, by decide⟩
  · rw [processDirectory_eq]
    exact filter_length_split _ files
  · rw [processDirectory_eq]
  · rw [processDirectory_eq]
    by_cases h : 0 < (files.flatMap (fileMsg verb process)).length
    · simp only [if_pos h, Option.getD_some]
    · have h0 : files.flatMap (fileMsg verb process) = [] := by
        cases hM : files.flatMap (fileMsg verb process) with
        | nil => rfl
        | cons a l => rw [hM] at h; simp at h
      simp [h, h0]

/-- C9 counterexample: the claim asserts that the strip and resize batch
runs create an empty output directory on an empty match set; in the
code both return the zero-count success result before the `mkdir` of
the output root, so no directory is created. -/
theorem empty_match_strip_resize_create_no_directory :
    stripProcessDirectory (fun _ => .ok ()) [] = ⟨true, 0, 0, none⟩ ∧
    resizeProcessDirectory (fun _ => .ok ()) [] = ⟨true, 0, 0, none⟩ ∧
    processDirectoryWrites "out" (fun f => [FsWrite.mkdirRec f, FsWrite.fileWrite f]) [] = [] ∧
    FsWrite.mkdirRec "out" ∉
      processDirectoryWrites "out" (fun f => [FsWrite.mkdirRec f, FsWrite.fileWrite f]) [] := by
  refine ⟨by decide, by decide, ?_, ?_⟩ <;>
    simp [processDirectoryWrites]

/-- C9 (amended): a batch run over a directory with no matching files
returns `{success: true, processed: 0, errors: 0}` for the watermark,
resize and strip operations alike, and none of the three creates the
output directory (all return before the `mkdir` of the output root). -/
theorem empty_match_zero_success_no_writes
    (process : String → Except String Unit) (outputDir : String)
    (perFile : String → List FsWrite) :
    watermarkProcessDirectory process [] = ⟨true, 0, 0, none⟩ ∧
    resizeProcessDirectory process [] = ⟨true, 0, 0, none⟩ ∧
    stripProcessDirectory process [] = ⟨true, 0, 0, none⟩ ∧
    processDirectoryWrites outputDir perFile [] = [] := by
  refine ⟨?_, ?_, ?_, ?_⟩ <;>
    simp [watermarkProcessDirectory, resizeProcessDirectory, stripProcessDirectory,
      processDirectory, processDirectoryWrites]

/-- C10: `addWatermark` validates the watermark-kind options before
touching the filesystem: when neither text nor image is set (JS-truthy),
or both are, it throws the corresponding option-validation error even
when the input path does not exist, and performs no filesystem write. -/
theorem addWatermark_validates_before_filesystem (options : WatermarkOptions)
    (input : String) (inputExists : Bool)
    (rest : Except String ProcessingResult × List FsWrite)
    (h : (optTruthy options.text = false ∧ optTruthy options.image = false) ∨
         (optTruthy options.text = true ∧ optTruthy options.image = true)) :
    addWatermark options input inputExists rest =
      ((if optTruthy options.text then
          .error "Please specify either --text or --image, not both"
        else .error "Please specify either --text or --image for watermark"), []) := by
  rcases h with ⟨h1, h2⟩ | ⟨h1, h2⟩ <;> simp [addWatermark, h1, h2]

/-- Witness for C10: with neither option set and a nonexistent input
path, `addWatermark` fails with the option-validation error and records
no filesystem write. -/
theorem addWatermark_validates_before_filesystem_witness :
    (optTruthy (WatermarkOptions.mk none none).text = false ∧
     optTruthy (WatermarkOptions.mk none none).image = false) ∧
    addWatermark ⟨none, none⟩ "missing.png" false
        (.ok ⟨true, 1, 0, none⟩, [FsWrite.fileWrite "out.png"]) =
      (.error "Please specify either --text or --image for watermark", []) :=
  ⟨⟨rfl, rfl⟩, addWatermark_validates_before_filesystem ⟨none, none⟩ "missing.png" false
    (.ok ⟨true, 1, 0, none⟩, [FsWrite.fileWrite "out.png"]) (Or.inl ⟨rfl, rfl⟩)⟩

/-- C3: for an 800×800 canvas, a 400×400 image overlay,
`size_percent = 25`, position bottom-right, `padding_x = "20"`,
`padding_y = "20"`, the overlay size computed is 200×200 and the
placement offset is `(580, 580)`. -/
theorem watermark_scenario_800_400_25_bottom_right :
    calculateWatermarkSize 400 400 800 800 25 = (200, 200) ∧
    parsePadding "20" 800 = .ok 20 ∧
    parsePadding "20" 800 = .ok 20 ∧
    calculateImagePosition "bottom-right" 800 800 200 200 20 20 = (580, 580) := by
  have h : parseNumSyntax "20" = some (false, 20, 0, 0, 0) := by decide
  refine ⟨?_, ?_, ?_, ?_⟩
  · norm_num [calculateWatermarkSize, jsRound]
  · simp [parsePadding, jsParseFloat, endsWithPercent, h, numValue]
  · simp [parsePadding, jsParseFloat, endsWithPercent, h, numValue]
  · simp [calculateImagePosition, Prod.ext_iff] <;> norm_num

/-- Rounding a natural number is the identity. -/
theorem jsRound_natCast (b : ℕ) : jsRound (b : ℚ) = b := by
  rw [jsRound, Int.floor_eq_iff] <;> push_cast <;> constructor <;> norm_num

/-- Bytes below 256 pass through the `Uint8` store unchanged. -/
theorem toUint8_of_lt (b : ℕ) (h : b < 256) : toUint8 b = b := by
  rw [toUint8, Int.emod_eq_of_lt (by positivity) (by exact_mod_cast h)]
  simp

/-- The `Uint8` store always produces a byte. -/
theorem toUint8_lt (z : ℤ) : toUint8 z < 256 := by
  rw [toUint8]
  have h1 : z % 256 < 256 := Int.emod_lt_of_pos z (by norm_num)
  omega

/-- In-range integers pass through the `Uint8` store unchanged. -/
theorem toUint8_eq_self (z : ℤ) (h0 : 0 ≤ z) (h1 : z < 256) : (toUint8 z : ℤ) = z := by
  rw [toUint8, Int.emod_eq_of_lt h0 h1, Int.toNat_of_nonneg h0]

/-- At opacity 1 the scan rewrites every alpha byte to itself. -/
theorem scaleAlphaGo_one :
    ∀ (data : List ℕ), data.all (fun b => b < 256) = true →
      ∀ i : ℕ, scaleAlphaGo 1 i data = data := by
  intro data
  induction data with
  | nil => intro _ _; rfl
  | cons b rest ih =>
    intro h i
    rw [List.all_cons, Bool.and_eq_true] at h
    rw [scaleAlphaGo, ih h.2 (i + 1)]
    have hb : toUint8 (jsRound (b : ℚ)) = b := by
      rw [jsRound_natCast, toUint8_of_lt b (by simpa using h.1)]
    simp [hb]

/-- At opacity 0 the scan zeroes every alpha byte. -/
theorem scaleAlphaGo_zero :
    ∀ (data : List ℕ) (i : ℕ), scaleAlphaGo 0 i data = alphaZeroed i data := by
  intro data
  induction data with
  | nil => intro _; rfl
  | cons b rest ih =>
    intro i
    rw [scaleAlphaGo, alphaZeroed, ih (i + 1)]
    have hb : toUint8 (jsRound (0 : ℚ)) = 0 := by
      rw [show ((0 : ℚ)) = ((0 : ℕ) : ℚ) by norm_num, jsRound_natCast]
      rfl
    simp [hb]

/-- C7: alpha scaling on the native-alpha path is the identity at
opacity 1.0 (each alpha byte equals its original value; every byte of a
real RGBA buffer is below 256), and at opacity 0.0 the resulting alpha
channel is all-zero with the color bytes untouched. -/
theorem alpha_scaling_identity_and_zero (data : List ℕ)
    (h : data.all (fun b => b < 256) = true) :
    scaleAlpha 1 data = data ∧ scaleAlpha 0 data = alphaZeroed 0 data :=
  ⟨scaleAlphaGo_one data h 0, scaleAlphaGo_zero data 0⟩

/-- Witness for C7 on a concrete two-pixel RGBA buffer. -/
theorem alpha_scaling_identity_and_zero_witness :
    ([10, 20, 30, 40, 50, 60, 70, 255].all (fun b => b < 256) = true) ∧
    (scaleAlpha 1 [10, 20, 30, 40, 50, 60, 70, 255] = [10, 20, 30, 40, 50, 60, 70, 255] ∧
     scaleAlpha 0 [10, 20, 30, 40, 50, 60, 70, 255]
        = alphaZeroed 0 [10, 20, 30, 40, 50, 60, 70, 255]) :=
  ⟨by decide, alpha_scaling_identity_and_zero [10, 20, 30, 40, 50, 60, 70, 255] (by decide)⟩

/-- The scan rewrites exactly the positions congruent to 3 mod 4
(relative to the running index), leaving every other byte unchanged. -/
theorem scaleAlphaGo_getD (opacity : ℚ) :
    ∀ (data : List ℕ) (i k : ℕ), k < data.length →
      (scaleAlphaGo opacity i data).getD k 0 =
        if (i + k) % 4 = 3 then toUint8 (jsRound ((data.getD k 0 : ℚ) * opacity))
        else data.getD k 0 := by
  intro data
  induction data with
  | nil => intro i k hk; simp at hk
  | cons b rest ih =>
    intro i k hk
    cases k with
    | zero => simp [scaleAlphaGo]
    | succ k =>
      rw [scaleAlphaGo]
      have hk' : k < rest.length := by simpa using hk
      have := ih (i + 1) k hk'
      simp only [List.getD_cons_succ]
      rw [this]
      have harith : i + 1 + k = i + (k + 1) := by omega
      rw [harith]

/-- C8 (amended): the alpha-scaling layer does not clamp or reject any
opacity value: for every opacity, the native-alpha path replaces every
4th byte starting at offset 3 with `round(original_alpha * opacity)`
converted by the `Uint8` store, i.e. reduced modulo 256 (the ECMAScript
wrap), so extreme opacities wrap into the valid byte range rather than
being clamped or rejected; whenever the rounded value already lies in
[0, 255] the stored byte equals it exactly. -/
theorem alpha_scaling_unclamped_wraps (opacity : ℚ) (data : List ℕ) (i : ℕ)
    (hi : i % 4 = 3) (hlen : i < data.length) :
    (scaleAlpha opacity data).getD i 0
        = toUint8 (jsRound ((data.getD i 0 : ℚ) * opacity)) ∧
    (scaleAlpha opacity data).getD i 0 < 256 ∧
    (0 ≤ jsRound ((data.getD i 0 : ℚ) * opacity) →
      jsRound ((data.getD i 0 : ℚ) * opacity) < 256 →
      ((scaleAlpha opacity data).getD i 0 : ℤ)
        = jsRound ((data.getD i 0 : ℚ) * opacity)) := by
  have hmain : (scaleAlpha opacity data).getD i 0
      = toUint8 (jsRound ((data.getD i 0 : ℚ) * opacity)) := by
    rw [scaleAlpha, scaleAlphaGo_getD opacity data 0 i hlen]
    simp [hi]
  refine ⟨hmain, ?_, ?_⟩
  · rw [hmain]; exact toUint8_lt _
  · intro h0 h1
    rw [hmain]
    exact toUint8_eq_self _ h0 h1

/-- Witness for C8 (amended) at opacity 1/2 on the buffer
`[0, 0, 0, 100]`: the stored alpha byte is the rounded product 50. -/
theorem alpha_scaling_unclamped_wraps_witness :
    (3 % 4 = 3) ∧ (3 < ([0, 0, 0, 100] : List ℕ).length) ∧
    (scaleAlpha (1/2) [0, 0, 0, 100]).getD 3 0
        = toUint8 (jsRound ((([0, 0, 0, 100] : List ℕ).getD 3 0 : ℚ) * (1/2))) ∧
    (scaleAlpha (1/2) [0, 0, 0, 100]).getD 3 0 < 256 ∧
    ((scaleAlpha (1/2) [0, 0, 0, 100]).getD 3 0 : ℤ)
        = jsRound ((([0, 0, 0, 100] : List ℕ).getD 3 0 : ℚ) * (1/2)) := by
  have h := alpha_scaling_unclamped_wraps (1/2) [0, 0, 0, 100] 3 (by decide) (by decide)
  have hr : (0 : ℤ) ≤ jsRound ((([0, 0, 0, 100] : List ℕ).getD 3 0 : ℚ) * (1/2)) ∧
      jsRound ((([0, 0, 0, 100] : List ℕ).getD 3 0 : ℚ) * (1/2)) < 256 := by
    norm_num [jsRound]
  exact ⟨by decide, by decide, h.1, h.2.1, h.2.2 hr.1 hr.2⟩

/-- C8 counterexample: at opacity 2 the alpha byte 200 rounds to 400 and
is stored as 400 mod 256 = 144 — neither the unreduced rounded product
nor its clamp to [0, 255] (255), so extreme opacities wrap rather than
being "silently clamped to the valid pixel range". -/
theorem alpha_scaling_clamp_counterexample :
    scaleAlpha 2 [0, 0, 0, 200] = [0, 0, 0, 144] ∧
    jsRound ((200 : ℚ) * 2) = 400 ∧
    ((144 : ℤ) ≠ jsRound ((200 : ℚ) * 2)) ∧
    ((144 : ℤ) ≠ clamp255 (jsRound ((200 : ℚ) * 2))) := by
  have h400 : jsRound ((200 : ℚ) * 2) = 400 := by norm_num [jsRound]
  refine ⟨?_, h400, by rw [h400]; decide, by rw [h400]; decide⟩
  have hz : toUint8 (jsRound ((200 : ℚ) * 2)) = 144 := by rw [h400]; decide
  have h0 : toUint8 (jsRound ((0 : ℚ) * 2)) = 0 := by
    norm_num [jsRound, toUint8]
  simp [scaleAlpha, scaleAlphaGo, hz, h0]

/-- `Math.round` is monotone. -/
theorem jsRound_mono {a b : ℚ} (h : a ≤ b) : jsRound a ≤ jsRound b :=
  Int.floor_le_floor (by linarith)

/-- The rounded value is at most the value plus a half. -/
theorem jsRound_le (q : ℚ) : (jsRound q : ℚ) ≤ q + 1/2 := Int.floor_le _

/-- The rounded value exceeds the value minus a half. -/
theorem lt_jsRound (q : ℚ) : q - 1/2 < (jsRound q : ℚ) := by
  have h := Int.lt_floor_add_one (q + 1/2)
  rw [jsRound]
  push_cast at h ⊢
  linarith

/-- C2: for `size_percent ∈ (0, 100]` and positive overlay and canvas
dimensions, `calculateWatermarkSize` returns the rounds of a uniform
scaling by `min(target/overlay_w, target/overlay_h)` where `target =
min(canvas_w, canvas_h) * size_percent / 100`; neither output exceeds
the rounded target, and the overlay's aspect ratio is preserved within
rounding error (`|w'·h − h'·w| ≤ (w + h)/2`). -/
theorem watermark_size_bounded_and_aspect (wmW wmH imgW imgH p : ℚ)
    (hw : 0 < wmW) (hh : 0 < wmH) (hiw : 0 < imgW) (hih : 0 < imgH)
    (hp : 0 < p) (hp100 : p ≤ 100) :
    (calculateWatermarkSize wmW wmH imgW imgH p).1
        ≤ jsRound (min imgW imgH * (p / 100)) ∧
    (calculateWatermarkSize wmW wmH imgW imgH p).2
        ≤ jsRound (min imgW imgH * (p / 100)) ∧
    |((calculateWatermarkSize wmW wmH imgW imgH p).1 : ℚ) * wmH
        - ((calculateWatermarkSize wmW wmH imgW imgH p).2 : ℚ) * wmW|
      ≤ (wmW + wmH) / 2 ∧
    (calculateWatermarkSize wmW wmH imgW imgH p).1
        = jsRound (wmW * min (min imgW imgH * (p / 100) / wmW)
            (min imgW imgH * (p / 100) / wmH)) ∧
    (calculateWatermarkSize wmW wmH imgW imgH p).2
        = jsRound (wmH * min (min imgW imgH * (p / 100) / wmW)
            (min imgW imgH * (p / 100) / wmH)) := by
  set T := min imgW imgH * (p / 100) with hT
  set s := min (T / wmW) (T / wmH) with hs
  have e1 : (calculateWatermarkSize wmW wmH imgW imgH p).1 = jsRound (wmW * s) := rfl
  have e2 : (calculateWatermarkSize wmW wmH imgW imgH p).2 = jsRound (wmH * s) := rfl
  have hWs : wmW * s ≤ T := by
    have h1 : s ≤ T / wmW := min_le_left _ _
    have h2 : wmW * s ≤ wmW * (T / wmW) := mul_le_mul_of_nonneg_left h1 hw.le
    rwa [mul_div_cancel₀ T hw.ne'] at h2
  have hHs : wmH * s ≤ T := by
    have h1 : s ≤ T / wmH := min_le_right _ _
    have h2 : wmH * s ≤ wmH * (T / wmH) := mul_le_mul_of_nonneg_left h1 hh.le
    rwa [mul_div_cancel₀ T hh.ne'] at h2
  refine ⟨?_, ?_, ?_, e1, e2⟩
  · rw [e1]; exact jsRound_mono hWs
  · rw [e2]; exact jsRound_mono hHs
  · rw [e1, e2]
    have ha1 : (jsRound (wmW * s) : ℚ) ≤ wmW * s + 1/2 := jsRound_le _
    have ha2 : wmW * s - 1/2 < (jsRound (wmW * s) : ℚ) := lt_jsRound _
    have hb1 : (jsRound (wmH * s) : ℚ) ≤ wmH * s + 1/2 := jsRound_le _
    have hb2 : wmH * s - 1/2 < (jsRound (wmH * s) : ℚ) := lt_jsRound _
    rw [abs_le]
    constructor <;> nlinarith [mul_le_mul_of_nonneg_right ha1 hh.le,
      mul_le_mul_of_nonneg_right ha2.le hh.le,
      mul_le_mul_of_nonneg_right hb1 hw.le,
      mul_le_mul_of_nonneg_right hb2.le hw.le]

/-- Witness for C2 at the 800×800 canvas, 400×400 overlay, 25% case. -/
theorem watermark_size_bounded_and_aspect_witness :
    ((0 : ℚ) < 400 ∧ (0 : ℚ) < 400 ∧ (0 : ℚ) < 800 ∧ (0 : ℚ) < 800 ∧
      (0 : ℚ) < 25 ∧ (25 : ℚ) ≤ 100) ∧
    ((calculateWatermarkSize 400 400 800 800 25).1
        ≤ jsRound (min (800 : ℚ) 800 * (25 / 100)) ∧
     (calculateWatermarkSize 400 400 800 800 25).2
        ≤ jsRound (min (800 : ℚ) 800 * (25 / 100)) ∧
     |((calculateWatermarkSize 400 400 800 800 25).1 : ℚ) * 400
        - ((calculateWatermarkSize 400 400 800 800 25).2 : ℚ) * 400|
      ≤ ((400 : ℚ) + 400) / 2 ∧
     (calculateWatermarkSize 400 400 800 800 25).1
        = jsRound (400 * min (min (800 : ℚ) 800 * (25 / 100) / 400)
            (min (800 : ℚ) 800 * (25 / 100) / 400)) ∧
     (calculateWatermarkSize 400 400 800 800 25).2
        = jsRound (400 * min (min (800 : ℚ) 800 * (25 / 100) / 400)
            (min (800 : ℚ) 800 * (25 / 100) / 400))) :=
  ⟨by norm_num, watermark_size_bounded_and_aspect 400 400 800 800 25
    (by norm_num) (by norm_num) (by norm_num) (by norm_num) (by norm_num) (by norm_num)⟩

/-- C5 counterexample: with canvas 10×10, content 8×8 and paddings 5
(each ≤ the canvas dimension, as the claim requires), the top-left
anchor places the content at (5, 5), whose box reaches 13 > 10 and so
does not lie within the canvas. -/
theorem position_within_canvas_counterexample :
    ((5 : ℚ) ≤ 10) ∧ ((5 : ℚ) ≤ 10) ∧
    ¬ boxInCanvas (calculateImagePosition "top-left" 10 10 8 8 5 5).1
        (calculateImagePosition "top-left" 10 10 8 8 5 5).2 8 8 10 10 := by
  refine ⟨by norm_num, by norm_num, ?_⟩
  simp only [calculateImagePosition, boxInCanvas]
  norm_num

/-- C5 (amended): for every position string (the nine documented anchors
included) and nonnegative paddings and content sizes with
`pad_x + content_w ≤ canvas_w` and `pad_y + content_h ≤ canvas_h`, the
offsets returned by `calculateImagePosition` keep the content's bounding
box within the canvas; the center position returns exactly
`((canvas_w − content_w)/2, (canvas_h − content_h)/2)`; and every
unrecognized position string falls back to the bottom-right anchor. -/
theorem position_within_canvas_amended (pos : String) (W H cw ch px py : ℚ)
    (hpx : 0 ≤ px) (hpy : 0 ≤ py) (hcw : 0 ≤ cw) (hch : 0 ≤ ch)
    (hxw : px + cw ≤ W) (hyh : py + ch ≤ H) :
    boxInCanvas (calculateImagePosition pos W H cw ch px py).1
        (calculateImagePosition pos W H cw ch px py).2 cw ch W H ∧
    calculateImagePosition "center" W H cw ch px py = ((W - cw) / 2, (H - ch) / 2) ∧
    (pos ∉ (["top-left", "top-right", "bottom-left", "bottom-right", "center"] :
        List String) →
      calculateImagePosition pos W H cw ch px py = (W - cw - px, H - ch - py)) := by
  refine ⟨?_, ?_, ?_⟩
  · unfold calculateImagePosition
    split_ifs <;> simp only [boxInCanvas] <;>
      refine ⟨by linarith, by linarith, by linarith, by linarith⟩
  · simp [calculateImagePosition]
  · intro h
    simp only [List.mem_cons, List.not_mem_nil, or_false] at h
    push_neg at h
    simp [calculateImagePosition, h.1, h.2.1, h.2.2.1, h.2.2.2.1, h.2.2.2.2]

/-- Witness for C5 (amended) at the unrecognized position "top" on an
800×800 canvas with 200×200 content and paddings 20. -/
theorem position_within_canvas_amended_witness :
    ((0 : ℚ) ≤ 20 ∧ (0 : ℚ) ≤ 20 ∧ (0 : ℚ) ≤ 200 ∧ (0 : ℚ) ≤ 200 ∧
      (20 : ℚ) + 200 ≤ 800 ∧ (20 : ℚ) + 200 ≤ 800) ∧
    boxInCanvas (calculateImagePosition "top" 800 800 200 200 20 20).1
        (calculateImagePosition "top" 800 800 200 200 20 20).2 200 200 800 800 ∧
    calculateImagePosition "center" 800 800 200 200 20 20
        = ((800 - 200) / 2, (800 - 200) / 2) ∧
    calculateImagePosition "top" 800 800 200 200 20 20
        = (800 - 200 - 20, 800 - 200 - 20) := by
  have h := position_within_canvas_amended "top" 800 800 200 200 20 20
    (by norm_num) (by norm_num) (by norm_num) (by norm_num) (by norm_num) (by norm_num)
  exact ⟨by norm_num, h.1, h.2.1, h.2.2 (by decide)⟩

/-- C6: `parsePadding` returns 80 for `("10%", 800)` and 20 for
`("20", 800)`; it fails with the padding error for `("-1", 800)` and for
`("101%", 800)`, and in general whenever the numeric part parses to
`NaN`, is negative, or (for percentage strings) exceeds 100. -/
theorem parsePadding_values_and_failures :
    parsePadding "10%" 800 = .ok 80 ∧
    parsePadding "20" 800 = .ok 20 ∧
    parsePadding "-1" 800
        = .error "Padding must be a positive number or percentage, got: -1" ∧
    parsePadding "101%" 800
        = .error "Padding percentage must be between 0 and 100, got: 101%" ∧
    (∀ (v : String) (d : ℚ), endsWithPercent v = true →
      (jsParseFloat ⟨v.data.dropLast⟩ = none ∨
        (∃ q, jsParseFloat ⟨v.data.dropLast⟩ = some q ∧ (q < 0 ∨ 100 < q))) →
      isErr (parsePadding v d) = true) ∧
    (∀ (v : String) (d : ℚ), endsWithPercent v = false →
      (jsParseFloat v = none ∨ (∃ q, jsParseFloat v = some q ∧ q < 0)) →
      isErr (parsePadding v d) = true) := by
  refine ⟨?_, ?_, ?_, ?_, ?_, ?_⟩
  · have h : parseNumSyntax "10" = some (false, 10, 0, 0, 0) := by decide
    simp [parsePadding, jsParseFloat, endsWithPercent, h, numValue]
    norm_num
  · have h : parseNumSyntax "20" = some (false, 20, 0, 0, 0) := by decide
    simp [parsePadding, jsParseFloat, endsWithPercent, h, numValue]
  · have h : parseNumSyntax "-1" = some (true, 1, 0, 0, 0) := by decide
    simp [parsePadding, jsParseFloat, endsWithPercent, h, numValue]
  · have h : parseNumSyntax "101" = some (false, 101, 0, 0, 0) := by decide
    simp [parsePadding, jsParseFloat, endsWithPercent, h, numValue]
    norm_num
  · intro v d h1 h2
    rcases h2 with hn | ⟨q, hq, hlt⟩
    · simp [parsePadding, h1, hn, isErr]
    · have hcond : q < 0 ∨ q > 100 := by
        rcases hlt with h | h
        · exact Or.inl h
        · exact Or.inr h
      simp [parsePadding, h1, hq, hcond, isErr]
  · intro v d h1 h2
    rcases h2 with hn | ⟨q, hq, hlt⟩
    · simp [parsePadding, h1, hn, isErr]
    · simp [parsePadding, h1, hq, hlt, isErr]

/-- Witness for C6's general failure clauses: `"abc%"` has a `NaN`
numeric part and `"-3"` parses negative; both make `parsePadding`
throw. -/
theorem parsePadding_values_and_failures_witness :
    endsWithPercent "abc%" = true ∧
    jsParseFloat ⟨("abc%" : String).data.dropLast⟩ = none ∧
    isErr (parsePadding "abc%" 800) = true ∧
    endsWithPercent "-3" = false ∧
    jsParseFloat "-3" = some (-3) ∧ ((-3 : ℚ) < 0) ∧
    isErr (parsePadding "-3" 800) = true := by
  have hparse : jsParseFloat "-3" = some (-3) := by
    have h : parseNumSyntax "-3" = some (true, 3, 0, 0, 0) := by decide
    simp [jsParseFloat, h, numValue]
  refine ⟨by decide, by rfl, ?_, by decide, hparse, by norm_num, ?_⟩
  · exact parsePadding_values_and_failures.2.2.2.2.1 "abc%" 800 (by decide)
      (Or.inl (by rfl))
  · exact parsePadding_values_and_failures.2.2.2.2.2 "-3" 800 (by decide)
      (Or.inr ⟨-3, hparse, by norm_num⟩)
